import Mathlib

/-!
Shallow embedding of `storage_client.go` from
`vendor/github.com/hashicorp/go-oracle-terraform/storage`, together with
theorems settling the specification's claims about it.

Go strings are modelled as lists of characters (`GoStr`).  Opaque external
handles (errors, `*http.Response`, `io.ReadSeeker` bodies) are modelled as
natural numbers: the code under study never inspects them, it only threads
them through.
-/

namespace OPCStorage

/-- Go strings, modelled as their character sequences. -/
abbrev GoStr := List Char

/-- Opaque Go `error` payload (the code only propagates errors, never
inspects them). -/
abbrev GoErr := Nat

/-- Opaque `*http.Response` handle. -/
abbrev Response := Nat

/-- Opaque `io.ReadSeeker` body handle. -/
abbrev Body := Nat

/-! ### Constants from the source file -/

/-- Constant `AUTH_HEADER = "X-Auth-Token"` from the source. -/
def AUTH_HEADER : GoStr := "X-Auth-Token".data

/-- Constant `API_VERSION = "v1"` from the source. -/
def API_VERSION : GoStr := "v1".data

/-- Result of `fmt.Sprintf(STR_ACCOUNT, domain)` with `STR_ACCOUNT = "/Storage-%s"`. -/
def strAccountFmt (domain : GoStr) : GoStr := "/Storage-".data ++ domain

/-- Result of `fmt.Sprintf(STR_USERNAME, domain, user)` with
`STR_USERNAME = "/Storage-%s:%s"`. -/
def strUserNameFmt (domain user : GoStr) : GoStr :=
  "/Storage-".data ++ domain ++ ":".data ++ user

/-- Result of `fmt.Sprintf(STR_QUALIFIED_NAME, version, account, name)` with
`STR_QUALIFIED_NAME = "%s%s/%s"`. -/
def strQualifiedNameFmt (version account name : GoStr) : GoStr :=
  version ++ account ++ "/".data ++ name

/-! ### Data model -/

/-- The identity fields of the generic API client handle that
`storage_client.go` reads (`c.client.IdentityDomain`, `c.client.UserName`;
the Go fields are pointers that the code dereferences unconditionally, so
they are modelled as plain strings). -/
structure GClient where
  identityDomain : GoStr
  userName : GoStr
deriving DecidableEq

/-- Structure `StorageClient`: the generic client handle, the optional auth token
(`authToken *string`, absent = `nil`) and the token issue timestamp
(`tokenIssued time.Time`, modelled as a rational number of minutes). -/
structure StorageClient where
  client : GClient
  authToken : Option GoStr
  tokenIssued : ℚ
deriving DecidableEq

/-! ### Name qualification helpers (pure string functions) -/

/-- Source `func (c *StorageClient) getUserName() string`. -/
def getUserName (c : StorageClient) : GoStr :=
  strUserNameFmt c.client.identityDomain c.client.userName

/-- Source `func (c *StorageClient) getAccount() string`. -/
def getAccount (c : StorageClient) : GoStr :=
  strAccountFmt c.client.identityDomain

/-- Source `func (c *StorageClient) getQualifiedName(name string) string`:

```
if name == "" { return "" }
if strings.HasPrefix(name, "/Storage-") || strings.HasPrefix(name, API_VERSION+"/") { return name }
return fmt.Sprintf(STR_QUALIFIED_NAME, API_VERSION, c.getAccount(), name)
``` -/
def getQualifiedName (c : StorageClient) (name : GoStr) : GoStr :=
  if name = [] then []
  else if ("/Storage-".data.isPrefixOf name || (API_VERSION ++ "/".data).isPrefixOf name) then
    name
  else strQualifiedNameFmt API_VERSION (getAccount c) name

/-- Go `strings.Split(s, "/")` specialised to the one-character separator
`"/"`: the maximal `/`-free blocks of `s`, in order (`Split("", sep)` is
`[""]`, and a leading, trailing or doubled separator yields empty blocks,
exactly as in Go). -/
def splitSlash : GoStr → List GoStr
  | [] => [[]]
  | c :: cs =>
    if c = '/' then [] :: splitSlash cs
    else
      match splitSlash cs with
      | [] => [[c]]
      | p :: ps => (c :: p) :: ps

/-- Go `strings.Contains(s, sub)`: some contiguous run of `s` equals
`sub`. -/
def goContains (s sub : GoStr) : Bool :=
  sub.isPrefixOf s ||
    match s with
    | [] => false
    | _ :: tl => goContains tl sub

/-- Source `func (c *StorageClient) getUnqualifiedName(name string) string`:

```
if name == "" { return name }
if !strings.Contains(name, "/") { return name }
nameParts := strings.Split(name, "/")
return strings.Join(nameParts[len(nameParts)-1:], "/")
``` -/
def getUnqualifiedName (name : GoStr) : GoStr :=
  if name = [] then name
  else if !(goContains name "/".data) then name
  else
    let nameParts := splitSlash name
    List.intercalate "/".data (nameParts.drop (nameParts.length - 1))

/-- The final path segment after the last `/` of a string (what the spec
says `unqualify` returns on slash-containing input): the longest
slash-free suffix.  This is the spec-side description, to be compared
with `getUnqualifiedName` as embedded from the source. -/
def lastSegmentAfterSlash (name : GoStr) : GoStr :=
  (name.reverse.takeWhile (fun c => c ≠ '/')).reverse

/-- Source `func (c *StorageClient) unqualify(names ...*string)`: replaces each
name by its unqualified form, in place. -/
def unqualifyAll (names : List GoStr) : List GoStr :=
  names.map getUnqualifiedName

/-! ### Request execution model

`executeRequestBody` interacts with external collaborators: the generic
client's `BuildNonJSONRequest`, `DebugLogString` and `ExecuteRequest`, the
wall clock (`time.Since`), and the storage package's own
`getAuthenticationToken` (declared outside this source file).  Their
behaviour on one call is captured by an environment `Env`; the call's
observable behaviour is an `Outcome`: the returned value, the updated
client state, and the ordered trace of externally visible events (debug
log emissions, re-authentication calls, request executions). -/

/-- An `*http.Request` as far as this file observes it: the fields the
debug line reads plus the header list.  `Header.Add` order is kept;  Go
canonicalizes MIME header keys, but the model keeps keys verbatim (every
key the claims touch, `X-Auth-Token` included, is already canonical). -/
structure Request where
  method : GoStr
  url : GoStr
  proto : GoStr
  header : List (GoStr × GoStr)
deriving DecidableEq

/-- Go `req.Header.Add(k, v)`: append the pair to the header list. -/
def addHeader (r : Request) (k v : GoStr) : Request :=
  { r with header := r.header ++ [(k, v)] }

/-- Modelled from the spec: `BuildNonJSONRequest(method, path, body)`
(generic client, outside this source file) builds a request object from
method, path and body or fails; a freshly built request carries no
headers.  These are the fields of the built request that
`executeRequestBody` reads. -/
structure BuiltReq where
  method : GoStr
  url : GoStr
  proto : GoStr
deriving DecidableEq

/-- The `headers interface{}` argument: Go `nil`, a `map[string]string`
(iteration order fixed by the list), or a non-nil value of any other
dynamic type (on which the unchecked assertion `headers.(map[string]string)`
panics). -/
inductive HeadersArg
  | nilHeaders
  | strMap (m : List (GoStr × GoStr))
  | otherType
deriving DecidableEq

/-- One call's environment: the results of the external collaborators.
`auth` is `getAuthenticationToken`, modelled from the spec (it is declared
outside this source file): on success it yields the new token and its
issue time, stored together.  `now` is the current wall-clock time in
minutes, so `time.Since(c.tokenIssued).Minutes()` is `now - c.tokenIssued`. -/
structure Env where
  build : GoStr → GoStr → Option Body → Except GoErr BuiltReq
  auth : Except GoErr (GoStr × ℚ)
  exec : Request → Except GoErr Response
  now : ℚ

/-- Externally visible events of one call, in order. -/
inductive Event
  | log (s : GoStr)
  | authCall
  | execCall (req : Request)
deriving DecidableEq

/-- The value returned by `executeRequestBody`: a response, an error, or a
runtime panic (the unchecked type assertion). -/
inductive ExecResult
  | ok (resp : Response)
  | err (e : GoErr)
  | panicked
deriving DecidableEq

/-- Observable behaviour of one `executeRequestBody` call. -/
structure Outcome where
  result : ExecResult
  state : StorageClient
  events : List Event
deriving DecidableEq

/-- Final step: `resp, err := c.client.ExecuteRequest(req)`; any error is
propagated, otherwise the response is returned. -/
def runExec (env : Env) (c : StorageClient) (req : Request) (pre : List Event) : Outcome :=
  match env.exec req with
  | .error e => ⟨.err e, c, pre ++ [.execCall req]⟩
  | .ok r => ⟨.ok r, c, pre ++ [.execCall req]⟩

/-- The token block of `executeRequestBody`:

```
if c.authToken != nil {
    if time.Since(c.tokenIssued).Minutes() > 25 {
        if err := c.getAuthenticationToken(); err != nil { return nil, err }
    }
    req.Header.Add(AUTH_HEADER, *c.authToken)
}
```
followed by `ExecuteRequest`.  `getAuthenticationToken` is modelled from
the spec: on success the token and its issue time are stored together (so
the header attaches the freshly issued token); on failure the state is
returned unchanged and the call aborts with that error. -/
def refreshAndRun (env : Env) (c : StorageClient) (req : Request) (pre : List Event) : Outcome :=
  match c.authToken with
  | none => runExec env c req pre
  | some tok =>
    if env.now - c.tokenIssued > 25 then
      match env.auth with
      | .error e => ⟨.err e, c, pre ++ [.authCall]⟩
      | .ok (tok2, t2) =>
        runExec env ⟨c.client, some tok2, t2⟩
          (addHeader req AUTH_HEADER tok2) (pre ++ [.authCall])
    else runExec env c (addHeader req AUTH_HEADER tok) pre

/-- Go `strings.ToLower`, character by character (ASCII-faithful). -/
def goToLower (s : GoStr) : GoStr := s.map Char.toLower

/-- Go `fmt.Sprintf("%s", xs)` for a string slice: `[e1 e2 ...]`
(space-separated, `[]` for a nil or empty slice). -/
def fmtStrSlice (xs : List GoStr) : GoStr :=
  "[".data ++ List.intercalate " ".data xs ++ "]".data

/-- Source `func (c *StorageClient) executeRequestBody(method, path string,
headers interface{}, body io.ReadSeeker) (*http.Response, error)`,
transcribed statement by statement:

1. `BuildNonJSONRequest`; a build error returns immediately.
2. `debugReqString := fmt.Sprintf("%s (%s) %s", req.Method, req.URL, req.Proto)`.
3. If `headers != nil`: range over `headers.(map[string]string)` (panic if
   the dynamic type is different), `req.Header.Add(k, v)` per entry, and
   extend the debug string with the lowercase-key/value lines.
4. Emit the debug line unless `strings.Contains(path, "/auth/")`.
5. Token block (`refreshAndRun`), then `ExecuteRequest`. -/
def executeRequestBody (env : Env) (c : StorageClient) (method path : GoStr)
    (headers : HeadersArg) (body : Option Body) : Outcome :=
  match env.build method path body with
  | .error e => ⟨.err e, c, []⟩
  | .ok b =>
    let req0 : Request := ⟨b.method, b.url, b.proto, []⟩
    let debugReqString := b.method ++ " (".data ++ b.url ++ ") ".data ++ b.proto
    match headers with
    | .otherType => ⟨.panicked, c, []⟩
    | .nilHeaders =>
      let pre := if goContains path "/auth/".data then [] else [Event.log debugReqString]
      refreshAndRun env c req0 pre
    | .strMap m =>
      let req1 : Request := { req0 with header := req0.header ++ m }
      let debugHeaders := m.map fun kv => goToLower kv.1 ++ ": ".data ++ kv.2 ++ "\n".data
      let ds2 := debugReqString ++ "\n".data ++ fmtStrSlice debugHeaders
      let pre := if goContains path "/auth/".data then [] else [Event.log ds2]
      refreshAndRun env c req1 pre

/-- Source `func (c *StorageClient) executeRequest(method, path string, headers
interface{})`: the nil-body variant. -/
def executeRequest (env : Env) (c : StorageClient) (method path : GoStr)
    (headers : HeadersArg) : Outcome :=
  executeRequestBody env c method path headers none

/-- Source `func NewStorageClient(c *opc.Config) (*StorageClient, error)`.  The
`client.NewClient(c)` result and the initial `getAuthenticationToken`
result are parameters (both collaborators live outside this source file;
`getAuthenticationToken` is modelled from the spec: on success it stores
the token and its issue time together).  The Go function returns
`(nil, err)` on failure and the fully built client on success, which
`Except` captures. -/
def NewStorageClient (newClientRes : Except GoErr GClient)
    (authRes : Except GoErr (GoStr × ℚ)) : Except GoErr StorageClient :=
  match newClientRes with
  | .error e => .error e
  | .ok gc =>
    match authRes with
    | .error e => .error e
    | .ok (tok, t) => .ok ⟨gc, some tok, t⟩

/-! ### Outcome projections -/

/-- Is the event a re-authentication call? -/
def isAuthEv : Event → Bool
  | .authCall => true
  | _ => false

/-- Is the event a request execution? -/
def isExecEv : Event → Bool
  | .execCall _ => true
  | _ => false

/-- The debug string of a log event, if any. -/
def logProj : Event → Option GoStr
  | .log s => some s
  | _ => none

/-- The request of an execution event, if any. -/
def execProj : Event → Option Request
  | .execCall r => some r
  | _ => none

/-- Number of re-authentication calls in the trace. -/
def Outcome.authCallCount (o : Outcome) : Nat := o.events.countP isAuthEv

/-- The debug log lines emitted, in order. -/
def Outcome.logLines (o : Outcome) : List GoStr := o.events.filterMap logProj

/-- The requests handed to `ExecuteRequest`, in order. -/
def Outcome.executedReqs (o : Outcome) : List Request := o.events.filterMap execProj

/-! ### Derived observations

Named pieces of `executeRequestBody` on the build-succeeded, well-typed
path, restated for use in theorem statements: the debug string, the
pending log events, and the request as it stands when the token block is
reached.  Each is definitionally equal to the corresponding subterm of
`executeRequestBody`. -/

/-- The debug string `executeRequestBody` assembles for a nil or
string-map headers argument. -/
def debugStrOf (b : BuiltReq) (headers : HeadersArg) : GoStr :=
  match headers with
  | .strMap m =>
    (b.method ++ " (".data ++ b.url ++ ") ".data ++ b.proto) ++ "\n".data
      ++ fmtStrSlice (m.map fun kv => goToLower kv.1 ++ ": ".data ++ kv.2 ++ "\n".data)
  | _ => b.method ++ " (".data ++ b.url ++ ") ".data ++ b.proto

/-- The log events emitted before the token block: one debug line, unless
the path contains `/auth/`. -/
def preOf (path : GoStr) (b : BuiltReq) (headers : HeadersArg) : List Event :=
  if goContains path "/auth/".data then [] else [Event.log (debugStrOf b headers)]

/-- The request as it stands when the token block is reached: the built
request plus the caller-supplied headers. -/
def reqOf (b : BuiltReq) (headers : HeadersArg) : Request :=
  ⟨b.method, b.url, b.proto, match headers with | .strMap m => m | _ => []⟩

/-! ### Helper lemmas -/

theorem splitSlash_ne_nil (l : GoStr) : splitSlash l ≠ [] := by
  cases l with
  | nil => simp [splitSlash]
  | cons c cs =>
    simp only [splitSlash]
    split
    · simp
    · cases h : splitSlash cs <;> simp

theorem length_splitSlash (l : GoStr) : (splitSlash l).length = l.count '/' + 1 := by
  induction l with
  | nil => simp [splitSlash]
  | cons c cs ih =>
    by_cases hc : c = '/'
    · subst hc
      simp [splitSlash, List.count_cons, ih]
    · simp only [splitSlash, if_neg hc]
      cases h : splitSlash cs with
      | nil => exact absurd h (splitSlash_ne_nil cs)
      | cons p ps =>
        rw [h] at ih
        simp only [List.length_cons] at ih ⊢
        rw [ih, List.count_cons]
        have : ('/' == c) = false := by
          rw [beq_eq_false_iff_ne]
          exact fun hh => hc hh.symm
        simp [this, hc]

theorem splitSlash_of_not_mem (l : GoStr) (h : '/' ∉ l) : splitSlash l = [l] := by
  induction l with
  | nil => rfl
  | cons c cs ih =>
    simp only [List.mem_cons, not_or] at h
    obtain ⟨h1, h2⟩ := h
    simp only [splitSlash]
    rw [if_neg (fun hh : c = '/' => h1 hh.symm), ih h2]

theorem takeWhile_append_last_neg {p : Char → Bool} (a : Char) (h : p a = false)
    (xs : GoStr) : (xs ++ [a]).takeWhile p = xs.takeWhile p := by
  induction xs with
  | nil => simp [List.takeWhile, h]
  | cons x xs ih =>
    simp only [List.cons_append, List.takeWhile_cons]
    cases p x <;> simp [ih]

theorem takeWhile_append_all {p : Char → Bool} (xs ys : GoStr)
    (h : ∀ x ∈ xs, p x = true) : (xs ++ ys).takeWhile p = xs ++ ys.takeWhile p := by
  induction xs with
  | nil => simp
  | cons x xs ih =>
    have hx : p x = true := h x (by simp)
    simp only [List.cons_append, List.takeWhile_cons, hx]
    rw [ih fun y hy => h y (by simp [hy])]
    simp

theorem takeWhile_append_of_mem {p : Char → Bool} (xs ys : GoStr) (a : Char)
    (ha : a ∈ xs) (hpa : p a = false) : (xs ++ ys).takeWhile p = xs.takeWhile p := by
  induction xs with
  | nil => simp at ha
  | cons x xs ih =>
    simp only [List.cons_append, List.takeWhile_cons]
    cases hx : p x with
    | false => rfl
    | true =>
      have hmem : a ∈ xs := by
        rcases List.mem_cons.mp ha with h | h
        · subst h; rw [hx] at hpa; exact absurd hpa (by simp)
        · exact h
      rw [ih hmem]

theorem getLastD_indep {α : Type} (l : List α) (h : l ≠ []) (d d' : α) :
    l.getLastD d = l.getLastD d' := by
  cases l with
  | nil => exact absurd rfl h
  | cons x xs =>
    cases xs with
    | nil => rfl
    | cons y ys =>
      rw [List.getLastD_cons d x (y :: ys), List.getLastD_cons d' x (y :: ys)]

theorem drop_length_sub_one {α : Type} (S : List α) (d : α) (h : S ≠ []) :
    S.drop (S.length - 1) = [S.getLastD d] := by
  induction S generalizing d with
  | nil => exact absurd rfl h
  | cons x xs ih =>
    cases xs with
    | nil => simp
    | cons y ys =>
      simpa using ih x (by simp)

theorem intercalate_singleton (sep x : GoStr) : List.intercalate sep [x] = x := by
  simp [List.intercalate]

theorem splitSlash_getLastD (l : GoStr) :
    (splitSlash l).getLastD [] = lastSegmentAfterSlash l := by
  induction l with
  | nil => rfl
  | cons c cs ih =>
    by_cases hc : c = '/'
    · subst hc
      have h1 : splitSlash ('/' :: cs) = [] :: splitSlash cs := by simp [splitSlash]
      rw [h1, List.getLastD_cons, ih]
      unfold lastSegmentAfterSlash
      rw [List.reverse_cons, takeWhile_append_last_neg '/' (by decide)]
    · have h1 : splitSlash (c :: cs)
          = match splitSlash cs with
            | [] => [[c]]
            | p :: ps => (c :: p) :: ps := by
        simp [splitSlash, hc]
      cases hS : splitSlash cs with
      | nil => exact absurd hS (splitSlash_ne_nil cs)
      | cons p ps =>
        rw [hS] at h1 ih
        by_cases hmem : '/' ∈ cs
        · have hps : ps ≠ [] := by
            have hlen := length_splitSlash cs
            rw [hS] at hlen
            have hpos : 0 < cs.count '/' := List.count_pos_iff.mpr hmem
            intro hnil
            subst hnil
            simp at hlen
            omega
          rw [h1, List.getLastD_cons, getLastD_indep ps hps (c :: p) p,
            ← List.getLastD_cons ([] : GoStr) p ps, ih]
          unfold lastSegmentAfterSlash
          rw [List.reverse_cons,
            takeWhile_append_of_mem cs.reverse [c] '/' (by simp [hmem]) (by decide)]
        · have hcs : splitSlash cs = [cs] := splitSlash_of_not_mem cs hmem
          have hpp : cs :: ([] : List GoStr) = p :: ps := hcs.symm.trans hS
          cases hpp
          rw [h1]
          unfold lastSegmentAfterSlash
          rw [List.reverse_cons,
            takeWhile_append_all cs.reverse [c]
              (fun x hx => by
                simp only [List.mem_reverse] at hx
                have : x ≠ '/' := fun hh => hmem (hh ▸ hx)
                simpa using this)]
          simp [List.takeWhile_cons, hc]

theorem goContains_slash_iff (l : GoStr) : goContains l "/".data = true ↔ '/' ∈ l := by
  induction l with
  | nil => simp [goContains, List.isPrefixOf]
  | cons x tl ih =>
    have hstep : goContains (x :: tl) "/".data
        = (List.isPrefixOf "/".data (x :: tl) || goContains tl "/".data) := rfl
    have hpre : List.isPrefixOf "/".data (x :: tl) = ('/' == x) := by
      show (('/' == x) && List.isPrefixOf ([] : GoStr) tl) = ('/' == x)
      cases h : ('/' == x) <;> simp [List.isPrefixOf, h]
    rw [hstep, hpre, List.mem_cons]
    simp [ih]

/-! ### Helper lemmas about the execution model -/

theorem runExec_events (env : Env) (c : StorageClient) (req : Request) (pre : List Event) :
    (runExec env c req pre).events = pre ++ [Event.execCall req] := by
  unfold runExec
  cases env.exec req <;> rfl

theorem runExec_ne_panic (env : Env) (c : StorageClient) (req : Request) (pre : List Event) :
    (runExec env c req pre).result ≠ ExecResult.panicked := by
  unfold runExec
  cases env.exec req <;> simp

theorem refreshAndRun_none (env : Env) (c : StorageClient) (req : Request) (pre : List Event)
    (htok : c.authToken = none) : refreshAndRun env c req pre = runExec env c req pre := by
  simp only [refreshAndRun, htok]

theorem refreshAndRun_fresh (env : Env) (c : StorageClient) (req : Request) (pre : List Event)
    (tok : GoStr) (htok : c.authToken = some tok) (hle : ¬(env.now - c.tokenIssued > 25)) :
    refreshAndRun env c req pre = runExec env c (addHeader req AUTH_HEADER tok) pre := by
  simp only [refreshAndRun, htok]
  rw [if_neg hle]

theorem refreshAndRun_stale_err (env : Env) (c : StorageClient) (req : Request)
    (pre : List Event) (tok : GoStr) (e : GoErr) (htok : c.authToken = some tok)
    (hgt : env.now - c.tokenIssued > 25) (hauth : env.auth = Except.error e) :
    refreshAndRun env c req pre = ⟨ExecResult.err e, c, pre ++ [Event.authCall]⟩ := by
  simp only [refreshAndRun, htok]
  rw [if_pos hgt, hauth]

theorem refreshAndRun_stale_ok (env : Env) (c : StorageClient) (req : Request)
    (pre : List Event) (tok tok2 : GoStr) (t2 : ℚ) (htok : c.authToken = some tok)
    (hgt : env.now - c.tokenIssued > 25) (hauth : env.auth = Except.ok (tok2, t2)) :
    refreshAndRun env c req pre
      = runExec env ⟨c.client, some tok2, t2⟩ (addHeader req AUTH_HEADER tok2)
          (pre ++ [Event.authCall]) := by
  simp only [refreshAndRun, htok]
  rw [if_pos hgt, hauth]

theorem refreshAndRun_ne_panic (env : Env) (c : StorageClient) (req : Request)
    (pre : List Event) : (refreshAndRun env c req pre).result ≠ ExecResult.panicked := by
  cases htok : c.authToken with
  | none => rw [refreshAndRun_none env c req pre htok]; exact runExec_ne_panic env c req pre
  | some tok =>
    by_cases hgt : env.now - c.tokenIssued > 25
    · cases hauth : env.auth with
      | error e =>
        rw [refreshAndRun_stale_err env c req pre tok e htok hgt hauth]
        simp
      | ok p =>
        obtain ⟨tok2, t2⟩ := p
        rw [refreshAndRun_stale_ok env c req pre tok tok2 t2 htok hgt hauth]
        exact runExec_ne_panic env _ _ _
    · rw [refreshAndRun_fresh env c req pre tok htok hgt]
      exact runExec_ne_panic env _ _ _

theorem refreshAndRun_logs (env : Env) (c : StorageClient) (req : Request) (pre : List Event) :
    (refreshAndRun env c req pre).events.filterMap logProj = pre.filterMap logProj := by
  cases htok : c.authToken with
  | none => rw [refreshAndRun_none env c req pre htok, runExec_events]; simp [logProj]
  | some tok =>
    by_cases hgt : env.now - c.tokenIssued > 25
    · cases hauth : env.auth with
      | error e =>
        rw [refreshAndRun_stale_err env c req pre tok e htok hgt hauth]
        simp [logProj]
      | ok p =>
        obtain ⟨tok2, t2⟩ := p
        rw [refreshAndRun_stale_ok env c req pre tok tok2 t2 htok hgt hauth, runExec_events]
        simp [logProj]
    · rw [refreshAndRun_fresh env c req pre tok htok hgt, runExec_events]
      simp [logProj]

theorem executeRequestBody_build_error (env : Env) (c : StorageClient) (method path : GoStr)
    (headers : HeadersArg) (body : Option Body) (e : GoErr)
    (hb : env.build method path body = Except.error e) :
    executeRequestBody env c method path headers body = ⟨ExecResult.err e, c, []⟩ := by
  simp only [executeRequestBody, hb]

theorem executeRequestBody_other (env : Env) (c : StorageClient) (method path : GoStr)
    (body : Option Body) (b : BuiltReq) (hb : env.build method path body = Except.ok b) :
    executeRequestBody env c method path HeadersArg.otherType body
      = ⟨ExecResult.panicked, c, []⟩ := by
  simp only [executeRequestBody, hb]

theorem executeRequestBody_ok_eq (env : Env) (c : StorageClient) (method path : GoStr)
    (body : Option Body) (b : BuiltReq) (hb : env.build method path body = Except.ok b)
    (headers : HeadersArg) (hho : headers ≠ HeadersArg.otherType) :
    executeRequestBody env c method path headers body
      = refreshAndRun env c (reqOf b headers) (preOf path b headers) := by
  cases headers with
  | otherType => exact absurd rfl hho
  | nilHeaders =>
    simp only [executeRequestBody, hb]
    rfl
  | strMap m =>
    simp only [executeRequestBody, hb]
    rfl

theorem countP_auth_preOf (path : GoStr) (b : BuiltReq) (headers : HeadersArg) :
    (preOf path b headers).countP isAuthEv = 0 := by
  unfold preOf
  split <;> rfl

theorem execProj_preOf (path : GoStr) (b : BuiltReq) (headers : HeadersArg) :
    (preOf path b headers).filterMap execProj = [] := by
  unfold preOf
  split <;> rfl

theorem noExec_preOf (path : GoStr) (b : BuiltReq) (headers : HeadersArg) :
    ∀ e ∈ preOf path b headers, isExecEv e = false := by
  unfold preOf
  split
  · intro e he
    simp at he
  · intro e he
    simp at he
    subst he
    rfl

theorem runExec_executedReqs (env : Env) (c : StorageClient) (req : Request)
    (pre : List Event) :
    (runExec env c req pre).executedReqs = pre.filterMap execProj ++ [req] := by
  unfold Outcome.executedReqs
  rw [runExec_events]
  simp [execProj]

/-! ### Claims C3-C5: the name qualification helpers -/

/-- Claim C3: `getQualifiedName` returns the empty string on empty input;
returns the input unchanged when it starts with `/Storage-` or with `v1/`;
and otherwise returns `v1/Storage-{identityDomain}/{name}`. -/
theorem C3_getQualifiedName_cases (c : StorageClient) (name : GoStr) :
    (name = [] → getQualifiedName c name = [])
    ∧ (("/Storage-".data.isPrefixOf name || (API_VERSION ++ "/".data).isPrefixOf name) = true →
        getQualifiedName c name = name)
    ∧ (name ≠ [] →
        ("/Storage-".data.isPrefixOf name || (API_VERSION ++ "/".data).isPrefixOf name) = false →
        getQualifiedName c name
          = "v1/Storage-".data ++ c.client.identityDomain ++ "/".data ++ name) := by
  refine ⟨fun h => by simp [getQualifiedName, h], fun h => ?_, fun hne h => ?_⟩
  · have hne : name ≠ [] := by
      rintro rfl
      revert h
      decide
    simp only [getQualifiedName, if_neg hne]
    rw [if_pos h]
  · simp only [getQualifiedName, if_neg hne]
    rw [if_neg (by simp [h])]
    rfl

/-- Witness for C3: the three cases at concrete inputs. -/
theorem C3_witness :
    getQualifiedName ⟨⟨"dom".data, "u".data⟩, none, 0⟩ [] = []
    ∧ getQualifiedName ⟨⟨"dom".data, "u".data⟩, none, 0⟩ "v1/foo".data = "v1/foo".data
    ∧ getQualifiedName ⟨⟨"dom".data, "u".data⟩, none, 0⟩ "myobj".data
        = "v1/Storage-dom/myobj".data := by
  refine ⟨(C3_getQualifiedName_cases _ []).1 rfl,
    (C3_getQualifiedName_cases _ "v1/foo".data).2.1 (by decide),
    ?_⟩
  rw [(C3_getQualifiedName_cases ⟨⟨"dom".data, "u".data⟩, none, 0⟩ "myobj".data).2.2
    (by decide) (by decide)]
  decide

/-- Claim C4: `getQualifiedName` is idempotent. -/
theorem C4_getQualifiedName_idempotent (c : StorageClient) (x : GoStr) :
    getQualifiedName c (getQualifiedName c x) = getQualifiedName c x := by
  by_cases hx : x = []
  · subst hx; rfl
  · by_cases hp : ("/Storage-".data.isPrefixOf x || (API_VERSION ++ "/".data).isPrefixOf x) = true
    · have h1 : getQualifiedName c x = x := by
        simp only [getQualifiedName, if_neg hx]
        rw [if_pos hp]
      rw [h1]
      exact h1
    · have h1 : getQualifiedName c x = strQualifiedNameFmt API_VERSION (getAccount c) x := by
        simp only [getQualifiedName, if_neg hx]
        rw [if_neg (by simpa using hp)]
      rw [h1]
      have h2 : strQualifiedNameFmt API_VERSION (getAccount c) x ≠ [] := by
        simp [strQualifiedNameFmt, API_VERSION]
      have h3 : ((API_VERSION ++ "/".data).isPrefixOf
          (strQualifiedNameFmt API_VERSION (getAccount c) x)) = true := by
        simp only [strQualifiedNameFmt, getAccount, strAccountFmt]
        rfl
      simp only [getQualifiedName, if_neg h2]
      rw [if_pos (by simp [h3])]

/-- Claim C5: `getUnqualifiedName` returns the empty string on empty input,
the input unchanged when it contains no `/`, and otherwise only the final
path segment after the last `/` (the longest slash-free suffix). -/
theorem C5_getUnqualifiedName_cases (name : GoStr) :
    (name = [] → getUnqualifiedName name = [])
    ∧ ('/' ∉ name → getUnqualifiedName name = name)
    ∧ ('/' ∈ name → getUnqualifiedName name = lastSegmentAfterSlash name) := by
  refine ⟨fun h => by simp [getUnqualifiedName, h], fun h => ?_, fun h => ?_⟩
  · by_cases hnil : name = []
    · simp [getUnqualifiedName, hnil]
    · have hgc : goContains name "/".data = false := by
        rw [Bool.eq_false_iff]
        intro hT
        exact h ((goContains_slash_iff name).mp hT)
      simp [getUnqualifiedName, hnil, hgc]
  · have hnil : name ≠ [] := by rintro rfl; simp at h
    have hgc : goContains name "/".data = true := (goContains_slash_iff name).mpr h
    simp only [getUnqualifiedName, if_neg hnil, hgc, Bool.not_true, Bool.false_eq_true,
      if_false]
    rw [drop_length_sub_one (splitSlash name) [] (splitSlash_ne_nil name),
      intercalate_singleton, splitSlash_getLastD]

/-! ### Claims C1-C2, C6-C10: request execution -/

theorem runExec_authCallCount (env : Env) (c : StorageClient) (req : Request)
    (pre : List Event) : (runExec env c req pre).authCallCount = pre.countP isAuthEv := by
  unfold Outcome.authCallCount
  rw [runExec_events, List.countP_append]
  rfl

/-- Claim C1 (amended): on a client holding a token, if at most 25 minutes
have elapsed since the token was issued, no re-authentication call occurs,
on any path through the function; if more than 25 minutes have elapsed and
the request build succeeded and the headers argument is nil or a string
map, exactly one re-authentication call occurs, and it precedes any
request execution in the trace.  (The original claim asserted the
stale-token half for every call; a call whose request build fails, or
whose headers argument panics the type assertion, returns before the token
block and performs no re-authentication.) -/
theorem C1_token_refresh (env : Env) (c : StorageClient) (method path : GoStr)
    (headers : HeadersArg) (body : Option Body) (tok : GoStr)
    (htok : c.authToken = some tok) :
    (env.now - c.tokenIssued ≤ 25 →
      (executeRequestBody env c method path headers body).authCallCount = 0)
    ∧ (env.now - c.tokenIssued > 25 → headers ≠ HeadersArg.otherType →
        ∀ b, env.build method path body = Except.ok b →
        (executeRequestBody env c method path headers body).authCallCount = 1
        ∧ ∃ l₁ l₂, (executeRequestBody env c method path headers body).events
            = l₁ ++ Event.authCall :: l₂ ∧ ∀ e ∈ l₁, isExecEv e = false) := by
  constructor
  · intro hle
    have hgt : ¬(env.now - c.tokenIssued > 25) := not_lt.mpr hle
    rcases hbuild : env.build method path body with e | b
    · rw [executeRequestBody_build_error env c method path headers body e hbuild]
      rfl
    · by_cases hho : headers = HeadersArg.otherType
      · subst hho
        rw [executeRequestBody_other env c method path body b hbuild]
        rfl
      · rw [executeRequestBody_ok_eq env c method path body b hbuild headers hho,
          refreshAndRun_fresh env c _ _ tok htok hgt, runExec_authCallCount,
          countP_auth_preOf]
  · intro hgt hho b hbuild
    rcases hauth : env.auth with e | p
    · rw [executeRequestBody_ok_eq env c method path body b hbuild headers hho,
        refreshAndRun_stale_err env c _ _ tok e htok hgt hauth]
      refine ⟨?_, preOf path b headers, [], ?_, noExec_preOf path b headers⟩
      · show (preOf path b headers ++ [Event.authCall]).countP isAuthEv = 1
        rw [List.countP_append, countP_auth_preOf]
        rfl
      · rfl
    · obtain ⟨tok2, t2⟩ := p
      rw [executeRequestBody_ok_eq env c method path body b hbuild headers hho,
        refreshAndRun_stale_ok env c _ _ tok tok2 t2 htok hgt hauth]
      refine ⟨?_, preOf path b headers,
        [Event.execCall (addHeader (reqOf b headers) AUTH_HEADER tok2)], ?_,
        noExec_preOf path b headers⟩
      · rw [runExec_authCallCount, List.countP_append, countP_auth_preOf]
        rfl
      · rw [runExec_events]
        simp

/-- Counterexample to C1 as stated: a client holding a token issued more
than 25 minutes ago, on a call whose request build fails: no
re-authentication call occurs. -/
theorem C1_counterexample :
    (⟨⟨"d".data, "u".data⟩, some "t".data, 0⟩ : StorageClient).authToken.isSome = true
    ∧ ((⟨fun _ _ _ => Except.error 7, Except.ok ("t2".data, 30),
          fun _ => Except.ok 0, 30⟩ : Env).now
        - (⟨⟨"d".data, "u".data⟩, some "t".data, 0⟩ : StorageClient).tokenIssued > 25)
    ∧ (executeRequestBody
        ⟨fun _ _ _ => Except.error 7, Except.ok ("t2".data, 30), fun _ => Except.ok 0, 30⟩
        ⟨⟨"d".data, "u".data⟩, some "t".data, 0⟩ "GET".data "/x".data
        HeadersArg.nilHeaders none).authCallCount = 0 := by
  refine ⟨rfl, by norm_num, rfl⟩

/-- Witness for C1: both halves at concrete inputs (fresh token: no
re-authentication; stale token with successful build: exactly one). -/
theorem C1_witness :
    (executeRequestBody
        ⟨fun _ _ _ => Except.ok ⟨"GET".data, "u".data, "p".data⟩, Except.ok ("t2".data, 10),
          fun _ => Except.ok 0, 10⟩
        ⟨⟨"d".data, "u".data⟩, some "t".data, 0⟩ "GET".data "/x".data
        HeadersArg.nilHeaders none).authCallCount = 0
    ∧ (executeRequestBody
        ⟨fun _ _ _ => Except.ok ⟨"GET".data, "u".data, "p".data⟩, Except.ok ("t2".data, 30),
          fun _ => Except.ok 0, 30⟩
        ⟨⟨"d".data, "u".data⟩, some "t".data, 0⟩ "GET".data "/x".data
        HeadersArg.nilHeaders none).authCallCount = 1 := by
  constructor
  · exact (C1_token_refresh _ _ _ _ _ _ "t".data rfl).1 (by norm_num)
  · exact ((C1_token_refresh _ _ _ _ _ _ "t".data rfl).2 (by norm_num) (by decide)
      ⟨"GET".data, "u".data, "p".data⟩ rfl).1

/-- Claim C2: when the token-refresh re-authentication fails (token held,
stale, the build having succeeded and the headers argument being
well-typed, so that the refresh is attempted), the call returns the
re-authentication error and `ExecuteRequest` is never invoked. -/
theorem C2_auth_failure_aborts (env : Env) (c : StorageClient) (method path : GoStr)
    (headers : HeadersArg) (body : Option Body) (tok : GoStr) (e : GoErr) (b : BuiltReq)
    (htok : c.authToken = some tok) (hgt : env.now - c.tokenIssued > 25)
    (hauth : env.auth = Except.error e) (hb : env.build method path body = Except.ok b)
    (hho : headers ≠ HeadersArg.otherType) :
    (executeRequestBody env c method path headers body).result = ExecResult.err e
    ∧ (executeRequestBody env c method path headers body).executedReqs = [] := by
  rw [executeRequestBody_ok_eq env c method path body b hb headers hho,
    refreshAndRun_stale_err env c _ _ tok e htok hgt hauth]
  refine ⟨rfl, ?_⟩
  show (preOf path b headers ++ [Event.authCall]).filterMap execProj = []
  rw [List.filterMap_append, execProj_preOf]
  rfl

/-- Witness for C2 at a concrete input: the re-authentication error `9` is
returned and no request is executed. -/
theorem C2_witness :
    (executeRequestBody
        ⟨fun _ _ _ => Except.ok ⟨"GET".data, "u".data, "p".data⟩, Except.error 9,
          fun _ => Except.ok 0, 30⟩
        ⟨⟨"d".data, "u".data⟩, some "t".data, 0⟩ "GET".data "/x".data
        HeadersArg.nilHeaders none).result = ExecResult.err 9
    ∧ (executeRequestBody
        ⟨fun _ _ _ => Except.ok ⟨"GET".data, "u".data, "p".data⟩, Except.error 9,
          fun _ => Except.ok 0, 30⟩
        ⟨⟨"d".data, "u".data⟩, some "t".data, 0⟩ "GET".data "/x".data
        HeadersArg.nilHeaders none).executedReqs = [] := by
  exact C2_auth_failure_aborts _ _ _ _ _ _ "t".data 9 ⟨"GET".data, "u".data, "p".data⟩
    rfl (by norm_num) rfl rfl (by decide)

/-- Claim C6 (amended): on a build-succeeded, well-typed call, if no token
is held and the caller-supplied header map does not itself contain the
`X-Auth-Token` key, then no executed request carries that key; if a token
is held, the executed request carries the current token (the freshly
issued one when a refresh occurred) as an `X-Auth-Token` header value.
(The original claim said the header is never attached when no token is
held; the caller can attach it through the headers argument.) -/
theorem C6_auth_header_attachment (env : Env) (c : StorageClient) (method path : GoStr)
    (headers : HeadersArg) (body : Option Body) (b : BuiltReq)
    (hb : env.build method path body = Except.ok b) (hho : headers ≠ HeadersArg.otherType) :
    (c.authToken = none →
      (∀ m, headers = HeadersArg.strMap m → ∀ kv ∈ m, kv.1 ≠ AUTH_HEADER) →
      ∀ r ∈ (executeRequestBody env c method path headers body).executedReqs,
        ∀ kv ∈ r.header, kv.1 ≠ AUTH_HEADER)
    ∧ (∀ tok, c.authToken = some tok →
        (¬(env.now - c.tokenIssued > 25) →
          ∀ r ∈ (executeRequestBody env c method path headers body).executedReqs,
            (AUTH_HEADER, tok) ∈ r.header)
        ∧ (env.now - c.tokenIssued > 25 → ∀ tok2 t2, env.auth = Except.ok (tok2, t2) →
            ∀ r ∈ (executeRequestBody env c method path headers body).executedReqs,
              (AUTH_HEADER, tok2) ∈ r.header)) := by
  rw [executeRequestBody_ok_eq env c method path body b hb headers hho]
  constructor
  · intro htok hm r hr kv hkv
    rw [refreshAndRun_none env c _ _ htok, runExec_executedReqs, execProj_preOf] at hr
    simp at hr
    subst hr
    cases headers with
    | otherType => exact absurd rfl hho
    | nilHeaders => simp [reqOf] at hkv
    | strMap m => exact hm m rfl kv (by simpa [reqOf] using hkv)
  · intro tok htok
    constructor
    · intro hle r hr
      rw [refreshAndRun_fresh env c _ _ tok htok hle, runExec_executedReqs,
        execProj_preOf] at hr
      simp at hr
      subst hr
      simp [addHeader]
    · intro hgt tok2 t2 hauth r hr
      rw [refreshAndRun_stale_ok env c _ _ tok tok2 t2 htok hgt hauth,
        runExec_executedReqs, List.filterMap_append, execProj_preOf] at hr
      simp [execProj] at hr
      subst hr
      simp [addHeader]

/-- Counterexample to C6 as stated: a client holding no token whose caller
supplies `X-Auth-Token` in the headers map: the executed request carries
the header. -/
theorem C6_counterexample :
    (⟨⟨"d".data, "u".data⟩, none, 0⟩ : StorageClient).authToken = none
    ∧ ((executeRequestBody
          ⟨fun _ _ _ => Except.ok ⟨"GET".data, "u".data, "p".data⟩, Except.ok ("t".data, 0),
            fun _ => Except.ok 0, 0⟩
          ⟨⟨"d".data, "u".data⟩, none, 0⟩ "GET".data "/x".data
          (HeadersArg.strMap [(AUTH_HEADER, "evil".data)]) none).executedReqs.any
        fun r => r.header.any fun kv => kv.1 == AUTH_HEADER) = true := by
  exact ⟨rfl, by decide⟩

/-- Witness for C6: a held, fresh token is attached to the executed
request at a concrete input. -/
theorem C6_witness :
    (AUTH_HEADER, "t".data) ∈
      (addHeader (reqOf ⟨"GET".data, "u".data, "p".data⟩ HeadersArg.nilHeaders)
        AUTH_HEADER "t".data).header := by
  apply ((C6_auth_header_attachment
      ⟨fun _ _ _ => Except.ok ⟨"GET".data, "u".data, "p".data⟩, Except.ok ("t2".data, 10),
        fun _ => Except.ok 0, 10⟩
      ⟨⟨"d".data, "u".data⟩, some "t".data, 0⟩ "GET".data "/x".data
      HeadersArg.nilHeaders none ⟨"GET".data, "u".data, "p".data⟩ rfl (by decide)).2
    "t".data rfl).1 (by norm_num)
  rw [executeRequestBody_ok_eq _ _ _ _ _ ⟨"GET".data, "u".data, "p".data⟩ rfl _ (by decide),
    refreshAndRun_fresh _ _ _ _ "t".data rfl (by norm_num),
    runExec_executedReqs, execProj_preOf]
  exact List.mem_singleton.mpr rfl

/-- Claim C7 (amended): a call whose path contains `/auth/` never emits
the header debug log line; a call whose path does not, and whose request
build succeeds with a nil-or-map headers argument, emits it exactly once.
(The original claim asserted the second half for every call; a call whose
build fails, or whose headers argument panics the type assertion, returns
before the log statement.) -/
theorem C7_debug_log (env : Env) (c : StorageClient) (method path : GoStr)
    (headers : HeadersArg) (body : Option Body) :
    (goContains path "/auth/".data = true →
      (executeRequestBody env c method path headers body).logLines = [])
    ∧ (goContains path "/auth/".data = false → headers ≠ HeadersArg.otherType →
        ∀ b, env.build method path body = Except.ok b →
        (executeRequestBody env c method path headers body).logLines
          = [debugStrOf b headers]) := by
  constructor
  · intro hcont
    rcases hbuild : env.build method path body with e | b
    · rw [executeRequestBody_build_error env c method path headers body e hbuild]
      rfl
    · by_cases hho : headers = HeadersArg.otherType
      · subst hho
        rw [executeRequestBody_other env c method path body b hbuild]
        rfl
      · rw [executeRequestBody_ok_eq env c method path body b hbuild headers hho]
        unfold Outcome.logLines
        rw [refreshAndRun_logs]
        unfold preOf
        rw [if_pos hcont]
        rfl
  · intro hcont hho b hbuild
    rw [executeRequestBody_ok_eq env c method path body b hbuild headers hho]
    unfold Outcome.logLines
    rw [refreshAndRun_logs]
    unfold preOf
    rw [if_neg (by simp [hcont])]
    rfl

/-- Counterexample to C7 as stated: a call whose path does not contain
`/auth/` but whose request build fails emits no debug log line. -/
theorem C7_counterexample :
    goContains "/x".data "/auth/".data = false
    ∧ (executeRequestBody
        ⟨fun _ _ _ => Except.error 7, Except.ok ("t".data, 0), fun _ => Except.ok 0, 0⟩
        ⟨⟨"d".data, "u".data⟩, none, 0⟩ "GET".data "/x".data
        HeadersArg.nilHeaders none).logLines = [] := ⟨by decide, rfl⟩

/-- Witness for C7: suppression on an `/auth/` path and emission on a
plain path, at concrete inputs. -/
theorem C7_witness :
    (executeRequestBody
        ⟨fun _ _ _ => Except.ok ⟨"GET".data, "u".data, "p".data⟩, Except.ok ("t".data, 0),
          fun _ => Except.ok 0, 0⟩
        ⟨⟨"d".data, "u".data⟩, none, 0⟩ "GET".data "/auth/tokens".data
        HeadersArg.nilHeaders none).logLines = []
    ∧ (executeRequestBody
        ⟨fun _ _ _ => Except.ok ⟨"GET".data, "u".data, "p".data⟩, Except.ok ("t".data, 0),
          fun _ => Except.ok 0, 0⟩
        ⟨⟨"d".data, "u".data⟩, none, 0⟩ "GET".data "/x".data
        HeadersArg.nilHeaders none).logLines
      = [debugStrOf ⟨"GET".data, "u".data, "p".data⟩ HeadersArg.nilHeaders] := by
  constructor
  · exact (C7_debug_log _ _ _ _ _ _).1 (by decide)
  · exact (C7_debug_log _ _ _ _ _ _).2 (by decide) (by decide)
      ⟨"GET".data, "u".data, "p".data⟩ rfl

/-- Claim C9: the emitted debug log lines are independent of the held
token: two client states differing only in the token value produce
identical log output, for every path and headers argument. -/
theorem C9_log_independent_of_token (env : Env) (method path : GoStr)
    (headers : HeadersArg) (body : Option Body) (gc : GClient)
    (t1 t2 : Option GoStr) (issued : ℚ) :
    (executeRequestBody env ⟨gc, t1, issued⟩ method path headers body).logLines
      = (executeRequestBody env ⟨gc, t2, issued⟩ method path headers body).logLines := by
  rcases hbuild : env.build method path body with e | b
  · rw [executeRequestBody_build_error env _ method path headers body e hbuild,
      executeRequestBody_build_error env _ method path headers body e hbuild]
    rfl
  · by_cases hho : headers = HeadersArg.otherType
    · subst hho
      rw [executeRequestBody_other env _ method path body b hbuild,
        executeRequestBody_other env _ method path body b hbuild]
      rfl
    · rw [executeRequestBody_ok_eq env _ method path body b hbuild headers hho,
        executeRequestBody_ok_eq env _ method path body b hbuild headers hho]
      unfold Outcome.logLines
      rw [refreshAndRun_logs, refreshAndRun_logs]

/-- Claim C10 (amended): when the request build succeeds, a non-nil
headers value of any dynamic type other than `map[string]string` panics
the unchecked type assertion, with no event (no header attached, no
re-authentication, no request executed); a nil or string-map headers value
never panics.  (The original claim asserted the panic for every call with
such a headers value; a call whose build fails returns the build error
before the type assertion is reached.) -/
theorem C10_headers_type_assertion (env : Env) (c : StorageClient) (method path : GoStr)
    (body : Option Body) (b : BuiltReq)
    (hb : env.build method path body = Except.ok b) :
    ((executeRequestBody env c method path HeadersArg.otherType body).result
        = ExecResult.panicked
      ∧ (executeRequestBody env c method path HeadersArg.otherType body).events = [])
    ∧ ∀ headers, headers ≠ HeadersArg.otherType →
        (executeRequestBody env c method path headers body).result
          ≠ ExecResult.panicked := by
  constructor
  · rw [executeRequestBody_other env c method path body b hb]
    exact ⟨rfl, rfl⟩
  · intro headers hho
    rw [executeRequestBody_ok_eq env c method path body b hb headers hho]
    exact refreshAndRun_ne_panic env c _ _

/-- Counterexample to C10 as stated: with a wrongly-typed headers value
but a failing request build, the call returns the build error and does not
panic. -/
theorem C10_counterexample :
    (executeRequestBody
        ⟨fun _ _ _ => Except.error 7, Except.ok ("t".data, 0), fun _ => Except.ok 0, 0⟩
        ⟨⟨"d".data, "u".data⟩, none, 0⟩ "GET".data "/x".data
        HeadersArg.otherType none).result = ExecResult.err 7
    ∧ ExecResult.err 7 ≠ ExecResult.panicked := ⟨rfl, by decide⟩

/-- Witness for C10: a wrongly-typed headers value panics at a concrete
input with a succeeding build. -/
theorem C10_witness :
    (executeRequestBody
        ⟨fun _ _ _ => Except.ok ⟨"GET".data, "u".data, "p".data⟩, Except.ok ("t".data, 0),
          fun _ => Except.ok 0, 0⟩
        ⟨⟨"d".data, "u".data⟩, none, 0⟩ "GET".data "/x".data
        HeadersArg.otherType none).result = ExecResult.panicked := by
  exact ((C10_headers_type_assertion _ _ _ _ _ ⟨"GET".data, "u".data, "p".data⟩ rfl).1).1

/-- Claim C8: `NewStorageClient` propagates a client-build failure,
propagates an initial-authentication failure, and otherwise returns a
fully initialized client (generic client set, token and issue time
stored); it never yields a partially-initialized client. -/
theorem C8_NewStorageClient_all_or_nothing (newClientRes : Except GoErr GClient)
    (authRes : Except GoErr (GoStr × ℚ)) :
    (∀ e, newClientRes = Except.error e →
      NewStorageClient newClientRes authRes = Except.error e)
    ∧ (∀ gc e, newClientRes = Except.ok gc → authRes = Except.error e →
        NewStorageClient newClientRes authRes = Except.error e)
    ∧ (∀ gc tok t, newClientRes = Except.ok gc → authRes = Except.ok (tok, t) →
        NewStorageClient newClientRes authRes = Except.ok ⟨gc, some tok, t⟩) := by
  refine ⟨fun e he => ?_, fun gc e hgc he => ?_, fun gc tok t hgc ha => ?_⟩
  · subst he
    rfl
  · subst hgc
    subst he
    rfl
  · subst hgc
    subst ha
    rfl

/-- Witness for C8: the three outcomes at concrete inputs. -/
theorem C8_witness :
    NewStorageClient (Except.error 3) (Except.ok ("t".data, 0)) = Except.error 3
    ∧ NewStorageClient (Except.ok ⟨"d".data, "u".data⟩) (Except.error 5) = Except.error 5
    ∧ NewStorageClient (Except.ok ⟨"d".data, "u".data⟩) (Except.ok ("t".data, 2))
        = Except.ok ⟨⟨"d".data, "u".data⟩, some "t".data, 2⟩ :=
  ⟨(C8_NewStorageClient_all_or_nothing _ _).1 3 rfl,
    (C8_NewStorageClient_all_or_nothing _ _).2.1 ⟨"d".data, "u".data⟩ 5 rfl rfl,
    (C8_NewStorageClient_all_or_nothing _ _).2.2 ⟨"d".data, "u".data⟩ "t".data 2 rfl rfl⟩

/-- Witness for C5: the three cases at concrete inputs. -/
theorem C5_witness :
    getUnqualifiedName [] = []
    ∧ getUnqualifiedName "noSlash".data = "noSlash".data
    ∧ getUnqualifiedName "a/b/c".data = lastSegmentAfterSlash "a/b/c".data := by
  refine ⟨(C5_getUnqualifiedName_cases []).1 rfl,
    (C5_getUnqualifiedName_cases "noSlash".data).2.1 (by decide),
    (C5_getUnqualifiedName_cases "a/b/c".data).2.2 (by decide)⟩

end OPCStorage
